import Mathlib

/-!
Shallow embedding of `src/cogs/raffle.py` (the `Raffle` cog of the Mayushii
bot): the giveaway data model, the startup role reconciliation, the entry
processing, the lifecycle commands (`create`, `cancel`, `finish`,
`modify winner_count`) and the winner-draw algorithm (`get_winner`).

Modelling conventions:
* Discord member and role identifiers are `Nat`.
* The membership provider (`bot.guild.get_member`, `discord.utils.get` on
  `guild.roles`) is an oracle `resolve : Nat -> Option Nat` returning the
  resolved member/role id, `none` meaning "no longer resolvable".
* `random.choice` is an oracle list of naturals (`chs`); a pick over a pool
  of length `n` uses the next oracle value modulo `n`.  The oracle is
  threaded through so that successive picks consume successive values.
* The SQLAlchemy session is modelled by the ledger contract of the spec
  (persistence is an external collaborator): rows live in plain lists,
  `add` appends, `delete` removes, attribute assignment updates the row.
* `Giveaway`, `Entry`, `GiveawayRole` are declared in `utils/database`,
  which is not part of the sources; their column lists are taken from how
  `raffle.py` uses them, and their primary keys from the spec's data model
  (`Entry` unique per (participant id, giveaway id)).
-/

namespace Raffle

/-- Row of the `Giveaway` table: id, name, target winner count, ongoing flag.
`win_count` is an `Int` because the commands pass arbitrary Python ints.
The `ongoing := true` default used at creation is Modelled from the spec:
`utils/database` (not in src) declares the column default; spec section 4.3
says create "Persists a new Giveaway with ongoing=true". -/
structure Giveaway where
  id : Nat
  name : String
  win_count : Int
  ongoing : Bool
deriving Repr, DecidableEq

/-- Row of the `Entry` table: participant id, owning giveaway id, winner flag. -/
structure Entry where
  id : Nat
  giveaway : Nat
  winner : Bool
deriving Repr, DecidableEq

/-- Row of the `GiveawayRole` table: role id paired with a giveaway id. -/
structure GiveawayRole where
  id : Nat
  giveaway : Nat
deriving Repr, DecidableEq

/-- In-memory state of the `Raffle` cog together with the persisted ledger:
`db` is the `Giveaway` table, `slot` is `self.raffle` (held as the id of the
current giveaway row; row mutations through the identity-mapped object are
modelled as updates of the row in `db`), `dbRoles` is the `GiveawayRole`
table, `roles` is the `self.roles` cache of resolved allowed roles (entries
can be `none`: `create_raffle` stores unresolved lookups verbatim), and
`entries` is the `Entry` table. -/
structure Cog where
  db : List Giveaway
  slot : Option Nat
  dbRoles : List GiveawayRole
  roles : List (Option Nat)
  entries : List Entry
deriving Repr, DecidableEq

/-- The current giveaway as the cog sees it: `self.raffle`, i.e. the row of
`db` the slot points at. -/
def Cog.currentRaffle (c : Cog) : Option Giveaway :=
  match c.slot with
  | none => none
  | some gid => c.db.find? (fun r => r.id == gid)

/-- The check `ongoing_raffle` (raffle.py lines 49-52): `self.raffle` is set
and its `ongoing` flag is true. -/
def ongoing_raffle (c : Cog) : Bool :=
  match c.currentRaffle with
  | some g => g.ongoing
  | none => false

/-- Update the `ongoing` column of the row with the given id
(`self.raffle.ongoing = b` through the identity map). -/
def setOngoing (db : List Giveaway) (gid : Nat) (b : Bool) : List Giveaway :=
  db.map (fun r => if r.id == gid then { r with ongoing := b } else r)

/-- Update the `win_count` column of the row with the given id
(`self.raffle.win_count = v`). -/
def setWinCount (db : List Giveaway) (gid : Nat) (v : Int) : List Giveaway :=
  db.map (fun r => if r.id == gid then { r with win_count := v } else r)

/-- Startup reconciliation loop of `Raffle.__init__` (raffle.py lines 39-45):
for each `GiveawayRole` of the ongoing giveaway, resolve the role id against
the guild; an unresolvable role row is deleted from the ledger, a resolvable
one is appended to the `self.roles` cache.  Returns the surviving
`GiveawayRole` rows and the built cache.  The row deletion
(`...get((role.id, self.raffle.id)).delete()`) is Modelled from the spec:
the `GiveawayRole` model lives in `utils/database` (not in src); spec
section 4.3 says an AllowedRole whose role no longer exists "is deleted from
the ledger (self-healing) rather than causing a startup failure". -/
def reconcile_roles (resolve : Nat → Option Nat) :
    List GiveawayRole → List GiveawayRole × List (Option Nat)
  | [] => ([], [])
  | r :: rs =>
    match resolve r.id with
    | none => reconcile_roles resolve rs
    | some d =>
      let p := reconcile_roles resolve rs
      (r :: p.1, some d :: p.2)

/-- Body of `Raffle.get_winner` (raffle.py lines 94-102), as a loop with an
explicit bound.  Each iteration picks a random entry of the pool; if the
member resolves, the entry's `winner` flag is set (the entry STAYS in the
pool) and the member is returned; otherwise the entry is deleted from the
pool and the loop retries.  The bound only has to dominate the number of
deletions, since every miss deletes exactly one entry; callers pass the pool
size, which makes the fuel-exhausted branch unreachable. -/
def get_winner_loop (resolve : Nat → Option Nat) :
    Nat → List Nat → List Entry → Option Nat × List Entry × List Nat
  | 0, chs, entries => (none, entries, chs)
  | fuel + 1, chs, entries =>
    match entries with
    | [] => (none, [], chs)
    | e :: es =>
      let i := chs.headD 0 % (e :: es).length
      let entry := (e :: es).getD i e
      match resolve entry.id with
      | some m => (some m, (e :: es).set i { entry with winner := true }, chs.tail)
      | none => get_winner_loop resolve fuel chs.tail ((e :: es).eraseIdx i)

/-- One call of `Raffle.get_winner`: run the loop with the pool size as the
iteration bound. -/
def get_winner (resolve : Nat → Option Nat) (chs : List Nat) (entries : List Entry) :
    Option Nat × List Entry × List Nat :=
  get_winner_loop resolve entries.length chs entries

/-- The draw loop of `Raffle.finish` (raffle.py lines 197-199): call
`get_winner` once per requested winner, collecting the (possibly `none`)
results in order. -/
def draw_winners (resolve : Nat → Option Nat) :
    Nat → List Nat → List Entry → List (Option Nat) × List Entry × List Nat
  | 0, chs, entries => ([], entries, chs)
  | k + 1, chs, entries =>
    let r := get_winner resolve chs entries
    let rest := draw_winners resolve k r.2.2 r.2.1
    (r.1 :: rest.1, rest.2.1, rest.2.2)

/-- The membership oracle in which every id resolves (to itself). -/
def resolveAll : Nat → Option Nat := fun n => some n

/-- C4: at startup reconciliation, every persisted AllowedRole of the ongoing
giveaway whose role id no longer resolves is deleted from the ledger (the
surviving rows are exactly the resolvable ones, the cache holds their
resolutions in order), and the reconciliation is a total function, so startup
completes normally instead of failing. -/
theorem c4_startup_reconciliation_self_healing (resolve : Nat → Option Nat)
    (roles : List GiveawayRole) :
    (reconcile_roles resolve roles).1 = roles.filter (fun r => (resolve r.id).isSome) ∧
    (reconcile_roles resolve roles).2 = roles.filterMap (fun r => (resolve r.id).map some) ∧
    ∀ r ∈ roles, resolve r.id = none → r ∉ (reconcile_roles resolve roles).1 := by
  have h1 : (reconcile_roles resolve roles).1
      = roles.filter (fun r => (resolve r.id).isSome) := by
    induction roles with
    | nil => rfl
    | cons r rs ih =>
      simp only [reconcile_roles, List.filter_cons]
      cases h : resolve r.id with
      | none => simpa [h] using ih
      | some d => simpa [h] using ih
  have h2 : (reconcile_roles resolve roles).2
      = roles.filterMap (fun r => (resolve r.id).map some) := by
    clear h1
    induction roles with
    | nil => rfl
    | cons r rs ih =>
      simp only [reconcile_roles, List.filterMap_cons]
      cases h : resolve r.id with
      | none => simpa [h] using ih
      | some d => simpa [h] using ih
  refine ⟨h1, h2, ?_⟩
  intro r _ hnone hmem
  rw [h1] at hmem
  have := (List.mem_filter.mp hmem).2
  simp [hnone] at this

/-- C1: the claim says the winner list of one `finish` draw contains no
duplicate participants.  It is false on the code: `get_winner` sets the
winning entry's flag but never removes the entry from the pool, so a later
`get_winner` step of the same draw can pick the same entry again.  Concrete
run: two resolvable entries (participants 1 and 2), winner count 2, the
random oracle picking index 0 both times; the resolved winner list is
`[1, 1]`, participant 1 winning twice. -/
theorem c1_duplicate_winner_possible :
    ((draw_winners resolveAll 2 [0, 0]
        [⟨1, 1, false⟩, ⟨2, 1, false⟩]).1.filterMap (fun x => x)) = [1, 1] ∧
    ¬ ((draw_winners resolveAll 2 [0, 0]
        [⟨1, 1, false⟩, ⟨2, 1, false⟩]).1.filterMap (fun x => x)).Nodup := by
  decide

/-- C6: the claim bounds the resolved winner list by the number of initially
resolvable entries.  False on the code, for the same reason as C1: with a
single resolvable entry (participant 7) and winner count 3, each of the three
`get_winner` steps returns that same entry, so the resolved list has length
3 while only 1 entry was resolvable. -/
theorem c6_winners_exceed_resolvable_entries :
    ((draw_winners resolveAll 3 [0, 0, 0]
        [⟨7, 1, false⟩]).1.filterMap (fun x => x)).length = 3 ∧
    (([⟨7, 1, false⟩] : List Entry).filter
        (fun e => (resolveAll e.id).isSome)).length = 1 := by
  decide

/-- Declared allowed roles of a giveaway: the `GiveawayRole` rows of that
giveaway (`self.raffle.roles`). -/
def declaredRoles (c : Cog) (g : Giveaway) : List GiveawayRole :=
  c.dbRoles.filter (fun r => r.giveaway == g.id)

/-- The role test inside `Raffle.process_entry` (raffle.py lines 61-68),
returning `true` when the request must be denied: the giveaway declares
roles (`if self.raffle.roles:`) and the author holds neither a role of the
`self.roles` cache nor a configured default role. -/
def roleGateBlocks (c : Cog) (g : Giveaway) (defaultRoles authorRoles : List Nat) : Bool :=
  !(declaredRoles c g).isEmpty &&
    !(c.roles.any (fun r =>
        match r with
        | some rid => authorRoles.contains rid
        | none => false)
      || defaultRoles.any (fun d => authorRoles.contains d))

/-- Outcome reported back to the author by `process_entry`. -/
inductive Outcome where
  | notAllowedRole
  | alreadyEntered
  | accepted
deriving Repr, DecidableEq

/-- Body of `Raffle.process_entry` (raffle.py lines 59-77) for a dequeued
request of author `a` holding `authorRoles`, against the current giveaway
`g`: role gate, then duplicate lookup by primary key (participant id,
giveaway id), then insertion of a fresh `Entry`.  The queue itself and the
blacklist/tenure command checks (external collaborators) are outside this
function, as in the source. -/
def process_entry (defaultRoles : List Nat) (a : Nat) (authorRoles : List Nat)
    (c : Cog) (g : Giveaway) : Cog × Outcome :=
  if roleGateBlocks c g defaultRoles authorRoles then
    (c, Outcome.notAllowedRole)
  else if (c.entries.find? (fun e => e.id == a && e.giveaway == g.id)).isSome then
    (c, Outcome.alreadyEntered)
  else
    ({ c with entries := c.entries ++ [⟨a, g.id, false⟩] }, Outcome.accepted)

/-- Appending one element satisfying the predicate to a list in which the
search fails makes the search return that element. -/
theorem find?_append_one {α : Type} (p : α → Bool) (l : List α) (e : α)
    (h : l.find? p = none) (he : p e = true) : (l ++ [e]).find? p = some e := by
  induction l with
  | nil => simp [List.find?, he]
  | cons x xs ih =>
    cases hx : p x with
    | true =>
      rw [List.find?_cons_of_pos _ hx] at h
      cases h
    | false =>
      rw [List.find?_cons_of_neg _ (by simp [hx])] at h
      rw [List.cons_append, List.find?_cons_of_neg _ (by simp [hx])]
      exact ih h

/-- A failed search means the filter by the same predicate is empty. -/
theorem filter_eq_nil_of_find?_none {α : Type} (p : α → Bool) (l : List α)
    (h : l.find? p = none) : l.filter p = [] := by
  induction l with
  | nil => rfl
  | cons x xs ih =>
    cases hx : p x with
    | true =>
      rw [List.find?_cons_of_pos _ hx] at h
      cases h
    | false =>
      rw [List.find?_cons_of_neg _ (by simp [hx])] at h
      simp [List.filter_cons, hx, ih h]

/-- C8: for an author passing the role gate with no prior entry, submitting
the same join request twice yields acceptance first and `AlreadyEntered`
second, and exactly one `Entry` row for the (participant, giveaway) pair
persists in the ledger. -/
theorem c8_join_idempotent (dr : List Nat) (a : Nat) (ars : List Nat)
    (c : Cog) (g : Giveaway)
    (hgate : roleGateBlocks c g dr ars = false)
    (hnew : c.entries.find? (fun e => e.id == a && e.giveaway == g.id) = none) :
    (process_entry dr a ars c g).2 = Outcome.accepted ∧
    (process_entry dr a ars (process_entry dr a ars c g).1 g).2 = Outcome.alreadyEntered ∧
    ((process_entry dr a ars (process_entry dr a ars c g).1 g).1.entries.filter
        (fun e => e.id == a && e.giveaway == g.id)).length = 1 := by
  have hp : (fun e : Entry => e.id == a && e.giveaway == g.id) ⟨a, g.id, false⟩ = true := by
    simp
  have h1 : process_entry dr a ars c g
      = ({ c with entries := c.entries ++ [⟨a, g.id, false⟩] }, Outcome.accepted) := by
    simp [process_entry, hgate, hnew]
  have hgate2 : roleGateBlocks
      { c with entries := c.entries ++ [⟨a, g.id, false⟩] } g dr ars = false := hgate
  have hfind : ((c.entries ++ [(⟨a, g.id, false⟩ : Entry)]).find?
      (fun e => e.id == a && e.giveaway == g.id)) = some ⟨a, g.id, false⟩ :=
    find?_append_one (fun e : Entry => e.id == a && e.giveaway == g.id) _ _ hnew hp
  have h2 : process_entry dr a ars { c with entries := c.entries ++ [⟨a, g.id, false⟩] } g
      = ({ c with entries := c.entries ++ [⟨a, g.id, false⟩] },
          Outcome.alreadyEntered) := by
    simp [process_entry, hgate2, hfind]
  have h3 : ((c.entries ++ [(⟨a, g.id, false⟩ : Entry)]).filter
      (fun e => e.id == a && e.giveaway == g.id)) = [⟨a, g.id, false⟩] := by
    rw [List.filter_append,
      filter_eq_nil_of_find?_none (fun e : Entry => e.id == a && e.giveaway == g.id) _ hnew]
    simp [hp]
  refine ⟨by rw [h1], ?_, ?_⟩
  · rw [h1, h2]
  · rw [h1, h2]
    show ((c.entries ++ [(⟨a, g.id, false⟩ : Entry)]).filter
        (fun e => e.id == a && e.giveaway == g.id)).length = 1
    rw [h3]
    rfl

/-- A concrete giveaway row without role restriction. -/
def g1 : Giveaway := ⟨1, "spring", 1, true⟩

/-- A concrete cog state: `g1` is current and ongoing, no roles, no entries. -/
def cogOne : Cog := ⟨[g1], some 1, [], [], []⟩

/-- Witness for C8 at a concrete input: participant 7 joining giveaway `g1`
twice from an empty ledger. -/
theorem c8_join_idempotent_witness :
    roleGateBlocks cogOne g1 [] [] = false ∧
    cogOne.entries.find? (fun e => e.id == 7 && e.giveaway == g1.id) = none ∧
    ((process_entry [] 7 [] cogOne g1).2 = Outcome.accepted ∧
      (process_entry [] 7 [] (process_entry [] 7 [] cogOne g1).1 g1).2
        = Outcome.alreadyEntered ∧
      ((process_entry [] 7 [] (process_entry [] 7 [] cogOne g1).1 g1).1.entries.filter
          (fun e => e.id == 7 && e.giveaway == g1.id)).length = 1) :=
  ⟨by decide, by decide, c8_join_idempotent [] 7 [] cogOne g1 (by decide) (by decide)⟩

/-- C10: for a coherent role cache (the resolved ids of the declared
AllowedRoles, as the startup reconciliation establishes), a join request on a
giveaway that declares AllowedRoles is denied with `NotAllowedRole` exactly
when the author holds no declared role and no configured default role; the
denial creates no Entry; and when the giveaway declares no AllowedRoles the
role check is skipped (that outcome is never produced). -/
theorem c10_role_gate_characterization (c : Cog) (g : Giveaway)
    (dr : List Nat) (a : Nat) (ars : List Nat)
    (hcache : c.roles = (declaredRoles c g).map (fun r => some r.id)) :
    (declaredRoles c g ≠ [] →
      ((process_entry dr a ars c g).2 = Outcome.notAllowedRole ↔
        (∀ r ∈ declaredRoles c g, r.id ∉ ars) ∧ ∀ d ∈ dr, d ∉ ars)) ∧
    ((process_entry dr a ars c g).2 = Outcome.notAllowedRole →
      (process_entry dr a ars c g).1 = c) ∧
    (declaredRoles c g = [] → (process_entry dr a ars c g).2 ≠ Outcome.notAllowedRole) := by
  have hout : ((process_entry dr a ars c g).2 = Outcome.notAllowedRole ↔
      roleGateBlocks c g dr ars = true) := by
    unfold process_entry
    split
    · simp [*]
    · split <;> simp [*]
  have hunch : (process_entry dr a ars c g).2 = Outcome.notAllowedRole →
      (process_entry dr a ars c g).1 = c := by
    intro ho
    have hb := hout.mp ho
    simp [process_entry, hb]
  have hgate : (roleGateBlocks c g dr ars = true ↔
      (declaredRoles c g ≠ [] ∧ (∀ r ∈ declaredRoles c g, r.id ∉ ars) ∧
        ∀ d ∈ dr, d ∉ ars)) := by
    rw [roleGateBlocks, hcache]
    simp [List.isEmpty_iff, List.contains, Function.comp, not_or]
  refine ⟨?_, hunch, ?_⟩
  · intro hne
    rw [hout, hgate]
    simp [hne]
  · intro hemp ho
    exact (hgate.mp (hout.mp ho)).1 hemp

/-- A concrete giveaway row declaring one allowed role. -/
def g2 : Giveaway := ⟨2, "vip", 1, true⟩

/-- A concrete cog state for `g2`: one declared AllowedRole (role 5) with a
coherent resolved cache, no entries. -/
def cogRoles : Cog := ⟨[g2], some 2, [⟨5, 2⟩], [some 5], []⟩

/-- Witness for C10 at a concrete input: giveaway `g2` declares role 5;
author 7 holds only role 3, default roles are `[9]`. -/
theorem c10_role_gate_characterization_witness :
    cogRoles.roles = (declaredRoles cogRoles g2).map (fun r => some r.id) ∧
    ((declaredRoles cogRoles g2 ≠ [] →
      ((process_entry [9] 7 [3] cogRoles g2).2 = Outcome.notAllowedRole ↔
        (∀ r ∈ declaredRoles cogRoles g2, r.id ∉ [3]) ∧ ∀ d ∈ [9], d ∉ [3])) ∧
    ((process_entry [9] 7 [3] cogRoles g2).2 = Outcome.notAllowedRole →
      (process_entry [9] 7 [3] cogRoles g2).1 = cogRoles) ∧
    (declaredRoles cogRoles g2 = [] →
      (process_entry [9] 7 [3] cogRoles g2).2 ≠ Outcome.notAllowedRole)) :=
  ⟨by decide, c10_role_gate_characterization cogRoles g2 [9] 7 [3] (by decide)⟩

/-- Python exception escaping a command body. -/
inductive PyExn where
  | attributeError
deriving Repr, DecidableEq

/-- Reported outcome of the `create` command. -/
inductive CreateOutcome where
  | alreadyRunning
  | aborted
  | started
deriving Repr, DecidableEq

/-- Autoincrement primary key for a new `Giveaway` row: strictly larger than
every existing id. -/
def fresh_gid (c : Cog) : Nat := (c.db.map (fun g => g.id)).foldr max 0 + 1

/-- Body of `Raffle.create_raffle` (raffle.py lines 79-92): persist the new
`Giveaway`, then, when roles were given, persist one `GiveawayRole` per role
id and rebuild the `self.roles` cache from `self.raffle.roles`.  At that
point `self.raffle` is still the OLD current giveaway — the caller assigns
the returned row to `self.raffle` only afterwards — so when the slot is
empty the attribute access raises `AttributeError` (partial effects, the
committed rows, remain).  When the slot is occupied, the list comprehension
iterates `GiveawayRole` rows of the old giveaway and passes each ROW (not an
id) as the `id=` filter of `discord.utils.get`, which therefore matches no
guild role and yields `None` for every element of the rebuilt cache. -/
def create_raffle (name : String) (winners : Int) (roleIds : List Nat) (c : Cog) :
    Cog × Except PyExn Giveaway :=
  let g : Giveaway := { id := fresh_gid c, name := name, win_count := winners, ongoing := true }
  let c1 : Cog := { c with db := c.db ++ [g] }
  if roleIds.isEmpty then (c1, Except.ok g)
  else
    let c2 : Cog := { c1 with dbRoles := c1.dbRoles ++ roleIds.map (fun rid => ⟨rid, g.id⟩) }
    match c2.slot with
    | none => (c2, Except.error PyExn.attributeError)
    | some oldGid =>
      let c3 : Cog := { c2 with
        roles := (c2.dbRoles.filter (fun r => r.giveaway == oldGid)).map
          (fun _ => (none : Option Nat)) }
      (c3, Except.ok g)

/-- The `giveaway create` command (raffle.py lines 123-153): refuse when a
current giveaway exists (`if self.raffle:`), otherwise ask for confirmation
and, on `yes`, run `create_raffle` and store the result in `self.raffle`.
An exception from `create_raffle` propagates before the slot assignment. -/
def create_cmd (name : String) (winners : Int) (roleIds : List Nat) (confirmed : Bool)
    (c : Cog) : Cog × Except PyExn CreateOutcome :=
  if c.slot.isSome then (c, Except.ok CreateOutcome.alreadyRunning)
  else if !confirmed then (c, Except.ok CreateOutcome.aborted)
  else
    match create_raffle name winners roleIds c with
    | (c1, Except.ok g) => ({ c1 with slot := some g.id }, Except.ok CreateOutcome.started)
    | (c1, Except.error e) => (c1, Except.error e)

/-- The `giveaway cancel` command body (raffle.py lines 179-187), reached
only under the `ongoing_raffle` check: on confirmation, set
`self.raffle.ongoing = False` and clear the slot. -/
def cancel_cmd (confirmed : Bool) (c : Cog) : Cog :=
  if confirmed then
    match c.slot with
    | some gid => { c with db := setOngoing c.db gid false, slot := none }
    | none => c
  else c

/-- The `giveaway modify winner_count` command body (raffle.py lines
259-265), reached only under the `ongoing_raffle` check: store the given
integer in `self.raffle.win_count` with no validation. -/
def winner_count_cmd (v : Int) (c : Cog) : Cog :=
  match c.slot with
  | some gid => { c with db := setWinCount c.db gid v }
  | none => c

/-- Tail of `Raffle.finish` after the draw loop (raffle.py lines 200-222):
filter unresolved draws, and either reopen the giveaway (empty winner list:
`self.raffle.ongoing = True; return`, slot kept) or report and clear the
slot (`self.raffle = None`).  The partial case (some but fewer than
`win_count` winners) only adds a report and falls through to the clearing
tail. -/
def finish_after_draw (c1 : Cog) (gid : Nat) (wc : Int) (winners : List Nat)
    (entries1 : List Entry) : Cog :=
  let c2 : Cog := { c1 with entries := entries1 }
  if (winners.length : Int) < wc then
    if winners.isEmpty then { c2 with db := setOngoing c2.db gid true }
    else { c2 with slot := none }
  else { c2 with slot := none }

/-- The `giveaway finish` command (raffle.py lines 193-222), reached only
under the `ongoing_raffle` check: set `ongoing = False`, wait for the queue
(not modelled, see the C5 discussion), run `get_winner` once per requested
winner over the giveaway's entries, then the post-draw tail.  Returns the
new state and the resolved winner list. -/
def finish (resolve : Nat → Option Nat) (chs : List Nat) (c : Cog) : Cog × List Nat :=
  match c.currentRaffle with
  | none => (c, [])
  | some g =>
    let c1 : Cog := { c with db := setOngoing c.db g.id false }
    let pool := c1.entries.filter (fun e => e.giveaway == g.id)
    let rest := c1.entries.filter (fun e => !(e.giveaway == g.id))
    let d := draw_winners resolve g.win_count.toNat chs pool
    let winners := d.1.filterMap (fun x => x)
    (finish_after_draw c1 g.id g.win_count winners (d.2.1 ++ rest), winners)

/-- Updating the `ongoing` column of the row a successful lookup returns
commutes with the lookup. -/
theorem find?_setOngoing (db : List Giveaway) (gid : Nat) (b : Bool) (g : Giveaway)
    (h : db.find? (fun r => r.id == gid) = some g) :
    (setOngoing db gid b).find? (fun r => r.id == gid) = some { g with ongoing := b } := by
  induction db with
  | nil => cases h
  | cons x xs ih =>
    by_cases hx : (x.id == gid) = true
    · rw [List.find?_cons_of_pos (p := fun r : Giveaway => r.id == gid) (a := x) _ hx] at h
      injection h with h
      subst h
      show ((if (x.id == gid) = true then { x with ongoing := b } else x) ::
          setOngoing xs gid b).find? (fun r => r.id == gid) = some { x with ongoing := b }
      rw [if_pos hx]
      exact List.find?_cons_of_pos _ hx
    · rw [List.find?_cons_of_neg (p := fun r : Giveaway => r.id == gid) (a := x) _ hx] at h
      show ((if (x.id == gid) = true then { x with ongoing := b } else x) ::
          setOngoing xs gid b).find? (fun r => r.id == gid) = some { g with ongoing := b }
      rw [if_neg hx]
      rw [show (x :: setOngoing xs gid b).find? (fun r : Giveaway => r.id == gid)
          = (setOngoing xs gid b).find? (fun r : Giveaway => r.id == gid)
        from List.find?_cons_of_neg _ hx]
      exact ih h

/-- Updating the `win_count` column of the row a successful lookup returns
commutes with the lookup. -/
theorem find?_setWinCount (db : List Giveaway) (gid : Nat) (v : Int) (g : Giveaway)
    (h : db.find? (fun r => r.id == gid) = some g) :
    (setWinCount db gid v).find? (fun r => r.id == gid) = some { g with win_count := v } := by
  induction db with
  | nil => cases h
  | cons x xs ih =>
    by_cases hx : (x.id == gid) = true
    · rw [List.find?_cons_of_pos (p := fun r : Giveaway => r.id == gid) (a := x) _ hx] at h
      injection h with h
      subst h
      show ((if (x.id == gid) = true then { x with win_count := v } else x) ::
          setWinCount xs gid v).find? (fun r => r.id == gid) = some { x with win_count := v }
      rw [if_pos hx]
      exact List.find?_cons_of_pos _ hx
    · rw [List.find?_cons_of_neg (p := fun r : Giveaway => r.id == gid) (a := x) _ hx] at h
      show ((if (x.id == gid) = true then { x with win_count := v } else x) ::
          setWinCount xs gid v).find? (fun r => r.id == gid) = some { g with win_count := v }
      rw [if_neg hx]
      rw [show (x :: setWinCount xs gid v).find? (fun r : Giveaway => r.id == gid)
          = (setWinCount xs gid v).find? (fun r : Giveaway => r.id == gid)
        from List.find?_cons_of_neg _ hx]
      exact ih h

/-- Every member of a list of naturals is bounded by its right max fold. -/
theorem le_foldr_max (l : List Nat) : ∀ x ∈ l, x ≤ l.foldr max 0 := by
  induction l with
  | nil => intro x hx; cases hx
  | cons y ys ih =>
    intro x hx
    rcases List.mem_cons.mp hx with rfl | hx
    · exact le_max_left _ _
    · exact le_trans (ih x hx) (le_max_right _ _)

/-- The autoincrement id of a new giveaway collides with no persisted row. -/
theorem find?_fresh (c : Cog) : c.db.find? (fun r => r.id == fresh_gid c) = none := by
  rw [List.find?_eq_none]
  intro g hg hbeq
  have h1 : g.id ≤ (c.db.map (fun r => r.id)).foldr max 0 :=
    le_foldr_max _ _ (List.mem_map_of_mem _ hg)
  have h2 : g.id = fresh_gid c := by simpa using hbeq
  rw [fresh_gid] at h2
  omega

/-- Case analysis of the post-draw tail of `finish`: a nonempty winner list
clears the slot; an empty winner list under a positive target reopens the
giveaway and keeps the slot. -/
theorem finish_after_draw_spec (c1 : Cog) (gid : Nat) (wc : Int) (ws : List Nat)
    (es : List Entry) (hpos : 0 < wc) :
    (ws ≠ [] → (finish_after_draw c1 gid wc ws es).slot = none) ∧
    (ws = [] → (finish_after_draw c1 gid wc ws es).slot = c1.slot ∧
      (finish_after_draw c1 gid wc ws es).db = setOngoing c1.db gid true) := by
  constructor
  · intro hne
    unfold finish_after_draw
    split
    · split
      · rename_i hemp
        exact absurd (List.isEmpty_iff.mp hemp) hne
      · rfl
    · rfl
  · intro he
    subst he
    unfold finish_after_draw
    split
    · split
      · exact ⟨rfl, rfl⟩
      · rename_i hemp
        simp at hemp
    · rename_i hcond
      exfalso
      apply hcond
      simpa using hpos

/-- C2: the claim says `finish()` always ends in state `NONE` (slot cleared,
ongoing false).  False on the code when the draw resolves no winner: with
giveaway `g1` (target 1) and no entries, `finish` re-marks the giveaway
ongoing and keeps it current. -/
theorem c2_empty_draw_reopens_cex :
    (finish resolveAll [] cogOne).1.slot ≠ none ∧
    ongoing_raffle (finish resolveAll [] cogOne).1 = true := by
  decide

/-- Unfolding of `finish` on a state with a current giveaway, with the draw
pieces written out. -/
theorem finish_eq (resolve : Nat → Option Nat) (chs : List Nat) (c : Cog)
    (g : Giveaway) (hcur : c.currentRaffle = some g) :
    finish resolve chs c
      = (finish_after_draw { c with db := setOngoing c.db g.id false } g.id g.win_count
          ((draw_winners resolve g.win_count.toNat chs
              (c.entries.filter (fun e => e.giveaway == g.id))).1.filterMap (fun x => x))
          ((draw_winners resolve g.win_count.toNat chs
              (c.entries.filter (fun e => e.giveaway == g.id))).2.1
            ++ c.entries.filter (fun e => !(e.giveaway == g.id))),
        (draw_winners resolve g.win_count.toNat chs
            (c.entries.filter (fun e => e.giveaway == g.id))).1.filterMap (fun x => x)) := by
  simp only [finish, hcur]

/-- C2 as amended: after `finish()` on an ongoing giveaway with a positive
winner target, a nonempty resolved winner list clears the current-giveaway
slot (state `NONE`); an empty winner list re-marks the giveaway as ongoing
and keeps it current (state back to `OPEN`), instead of moving to `NONE`. -/
theorem c2_finish_lifecycle_amended (resolve : Nat → Option Nat) (chs : List Nat)
    (c : Cog) (gid : Nat) (g : Giveaway)
    (hs : c.slot = some gid) (hf : c.db.find? (fun r => r.id == gid) = some g)
    (hpos : 0 < g.win_count) :
    ((finish resolve chs c).2 ≠ [] → (finish resolve chs c).1.slot = none) ∧
    ((finish resolve chs c).2 = [] → (finish resolve chs c).1.slot = some gid ∧
      ongoing_raffle (finish resolve chs c).1 = true) := by
  have hgid : g.id = gid := by simpa using List.find?_some hf
  subst hgid
  have hcur : c.currentRaffle = some g := by
    simp [Cog.currentRaffle, hs, hf]
  rw [finish_eq resolve chs c g hcur]
  dsimp only
  constructor
  · intro hne
    exact (finish_after_draw_spec _ _ _ _ _ hpos).1 hne
  · intro he
    have hsp := (finish_after_draw_spec
      { c with db := setOngoing c.db g.id false } g.id g.win_count
      ((draw_winners resolve g.win_count.toNat chs
          (c.entries.filter (fun e => e.giveaway == g.id))).1.filterMap (fun x => x))
      ((draw_winners resolve g.win_count.toNat chs
          (c.entries.filter (fun e => e.giveaway == g.id))).2.1
        ++ c.entries.filter (fun e => !(e.giveaway == g.id))) hpos).2 he
    obtain ⟨hsp1, hsp2⟩ := hsp
    dsimp only at hsp1 hsp2
    have hslot := hsp1.trans hs
    refine ⟨hslot, ?_⟩
    have hfind := find?_setOngoing _ _ true _ (find?_setOngoing _ _ false _ hf)
    simp [ongoing_raffle, Cog.currentRaffle, hslot, hsp2, hfind]

/-- Witness for the amended C2 at a concrete input: `finish` on `cogOne`
(no entries, so the draw is empty). -/
theorem c2_finish_lifecycle_amended_witness :
    cogOne.slot = some 1 ∧
    cogOne.db.find? (fun r => r.id == 1) = some g1 ∧
    (0 : Int) < g1.win_count ∧
    (((finish resolveAll [] cogOne).2 ≠ [] → (finish resolveAll [] cogOne).1.slot = none) ∧
      ((finish resolveAll [] cogOne).2 = [] → (finish resolveAll [] cogOne).1.slot = some 1 ∧
        ongoing_raffle (finish resolveAll [] cogOne).1 = true)) :=
  ⟨rfl, by decide, by decide,
    c2_finish_lifecycle_amended resolveAll [] cogOne 1 g1 rfl (by decide) (by decide)⟩

/-- The cog state right after first startup: empty ledger, no current
giveaway. -/
def cogInit : Cog := ⟨[], none, [], [], []⟩

/-- C3: the claim says `create` from `NONE` with a non-empty role list never
crashes, persists the Giveaway with its AllowedRoles and moves to `OPEN`.
False on the code: `create_raffle` rebuilds the cache from
`self.raffle.roles` while `self.raffle` is still `None`, so the command
raises `AttributeError` — after having already persisted the ongoing
Giveaway and its role row — and the controller never moves to `OPEN`. -/
theorem c3_create_with_roles_raises :
    (create_cmd "g" 1 [5] true cogInit).2 = Except.error PyExn.attributeError ∧
    (create_cmd "g" 1 [5] true cogInit).1.db.map (fun g => g.ongoing) = [true] ∧
    (create_cmd "g" 1 [5] true cogInit).1.dbRoles = [⟨5, 1⟩] ∧
    (create_cmd "g" 1 [5] true cogInit).1.slot = none :=
  ⟨rfl, rfl, rfl, rfl⟩

/-- C9: the claim says creation and the winner-count command keep every
persisted win_count positive for every integer they accept.  False on the
code: the ongoing giveaway of `cogOne` has a positive target, yet
`winner_count 0` is accepted and persists a non-positive target. -/
theorem c9_nonpositive_accepted_cex :
    ongoing_raffle cogOne = true ∧
    (∀ g ∈ cogOne.db, 0 < g.win_count) ∧
    ¬ (∀ g ∈ (winner_count_cmd 0 cogOne).db, 0 < g.win_count) := by
  decide

/-- C9 as amended: neither `create` nor `modify winner_count` validates its
integer argument — each stores it verbatim as the persisted target, so the
target is positive exactly when every supplied argument was. -/
theorem c9_win_count_unvalidated_amended (c : Cog) :
    (∀ (name : String) (w : Int), c.slot = none →
      ∃ g, (create_cmd name w [] true c).1.currentRaffle = some g ∧ g.win_count = w) ∧
    (∀ (v : Int) (gid : Nat) (g : Giveaway), c.slot = some gid →
      c.db.find? (fun r => r.id == gid) = some g →
      (winner_count_cmd v c).currentRaffle = some { g with win_count := v }) := by
  constructor
  · intro name w h
    refine ⟨{ id := fresh_gid c, name := name, win_count := w, ongoing := true }, ?_, rfl⟩
    simp only [create_cmd, h, create_raffle, Cog.currentRaffle]
    simp only [Option.isSome_none, Bool.false_eq_true, if_false, Bool.not_true,
      List.isEmpty_nil, if_true]
    exact find?_append_one _ _ _ (find?_fresh c) (by simp)
  · intro v gid g hs hf
    simp only [winner_count_cmd, hs, Cog.currentRaffle]
    exact find?_setWinCount c.db gid v g hf

/-- Witness for the amended C9 at concrete inputs: creating with target 0
from the empty state, and setting the target of `g1` to -3. -/
theorem c9_win_count_unvalidated_amended_witness :
    cogInit.slot = none ∧ cogOne.slot = some 1 ∧
    cogOne.db.find? (fun r => r.id == 1) = some g1 ∧
    (∃ g, (create_cmd "a" 0 [] true cogInit).1.currentRaffle = some g ∧ g.win_count = 0) ∧
    (winner_count_cmd (-3) cogOne).currentRaffle = some { g1 with win_count := -3 } :=
  ⟨rfl, rfl, by decide,
    (c9_win_count_unvalidated_amended cogInit).1 "a" 0 rfl,
    (c9_win_count_unvalidated_amended cogOne).2 (-3) 1 g1 rfl (by decide)⟩

/-- One command execution of the cog, as observed on the cog state: the
`create` command (any argument and confirmation answer), a dequeued `join`
request against the current ongoing giveaway, and the `cancel`, `finish`
and `modify winner_count` commands under their `ongoing_raffle` check. -/
inductive Step : Cog → Cog → Prop where
  | createStep (c : Cog) (name : String) (w : Int) (roleIds : List Nat)
      (confirmed : Bool) :
      Step c (create_cmd name w roleIds confirmed c).1
  | joinStep (c : Cog) (dr : List Nat) (a : Nat) (ars : List Nat) (g : Giveaway)
      (hg : c.currentRaffle = some g) (ho : g.ongoing = true) :
      Step c (process_entry dr a ars c g).1
  | cancelStep (c : Cog) (confirmed : Bool) (h : ongoing_raffle c = true) :
      Step c (cancel_cmd confirmed c)
  | finishStep (c : Cog) (resolve : Nat → Option Nat) (chs : List Nat)
      (h : ongoing_raffle c = true) :
      Step c (finish resolve chs c).1
  | modifyStep (c : Cog) (v : Int) (h : ongoing_raffle c = true) :
      Step c (winner_count_cmd v c)

/-- Cog states reachable from the first startup on an empty ledger. -/
inductive Reach : Cog → Prop where
  | start : Reach cogInit
  | next {c c' : Cog} : Reach c → Step c c' → Reach c'

/-- C7: the claim says at most one persisted Giveaway ever has ongoing=true.
False on the code: `create` with a role list persists the ongoing Giveaway
and then raises (see C3) before the slot is assigned, so a following
`create` passes the `if self.raffle:` guard and persists a second ongoing
Giveaway.  The state after `create("a", 1, [role 5])` (crash) followed by
`create("b", 1, [])` is reachable and holds two rows with ongoing=true.
(The guard itself does hold: `create` while the slot is occupied changes
nothing, which is the second half of the claim.) -/
theorem c7_two_ongoing_reachable :
    Reach (create_cmd "b" 1 [] true (create_cmd "a" 1 [5] true cogInit).1).1 ∧
    ((create_cmd "b" 1 [] true (create_cmd "a" 1 [5] true cogInit).1).1.db.filter
        (fun g => g.ongoing)).length = 2 :=
  ⟨Reach.next (Reach.next Reach.start (Step.createStep cogInit "a" 1 [5] true))
      (Step.createStep (create_cmd "a" 1 [5] true cogInit).1 "b" 1 [] true),
    by decide⟩

end Raffle
